import Mathlib

/-!
Verification of the logDelibery dashboard's data-derivation and session logic.

The embedding models the TypeScript sources:
* the `MetricData` record type and the derived views of `Dashboard`
  (`stats`, `latencyData`, `methodData`, the `slice(-10).reverse()` log table,
  `handleSimulateTraffic`, and the sort performed by `fetchData`);
* the `handleSubmit` login flow of `Login`;
* `authService.logout` together with the session-restore read in `App`.

JavaScript numbers are modelled by exact rationals, fields that the code
guards with a falsiness check (`|| 0`, `|| 'UNKNOWN'`, ternary on
`timestampMs`) are modelled as `Option`, and `toFixed` is modelled by exact
half-up rounding followed by decimal rendering.
-/

/-- One metric record, as declared in the `MetricData` interface.  Fields that
the dashboard accesses behind a falsiness guard are `Option`-valued; the
remaining numeric fields are plain rationals. -/
structure MetricData where
  method : Option String
  endpoint : String
  responseTimeMs : Option ℚ
  statusCode : ℤ
  requestSizeBytes : ℚ
  responseSizeBytes : ℚ
  timestampMs : Option ℤ
deriving Repr, DecidableEq

/-- Model of `m.responseTimeMs || 0`: a missing response time counts as `0`
(a stored `0` is falsy in JavaScript and also yields `0`). -/
def rtVal (m : MetricData) : ℚ := m.responseTimeMs.getD 0

/-- Model of `m.timestampMs || 0`: the sort key used by `fetchData`. -/
def tsKey (m : MetricData) : ℤ := m.timestampMs.getD 0

/-- Model of `m.method || 'UNKNOWN'`: an absent method, and the falsy empty string,
are bucketed under the sentinel label. -/
def methodLabel (m : MetricData) : String :=
  match m.method with
  | some s => if s = "" then "UNKNOWN" else s
  | none => "UNKNOWN"

/-- JavaScript `Number.prototype.toFixed` picks the integer `n` minimising
`|n / 10^d - x|`, taking the larger `n` on a tie: half-up rounding of
`x * 10^d`. -/
def jsRoundHalfUp (q : ℚ) : ℤ := ⌊q + 1 / 2⌋

/-- Left-pad a digit string with zeros up to width `d`. -/
def padZeros (s : String) (d : ℕ) : String :=
  String.mk (List.replicate (d - s.length) '0') ++ s

/-- Model of `x.toFixed(d)`: render the half-up rounding of `x * 10^d` with `d`
digits after the decimal point. -/
def toFixed (q : ℚ) (d : ℕ) : String :=
  let scaled := jsRoundHalfUp (q * (10 : ℚ) ^ d)
  let sign := if scaled < 0 then "-" else ""
  let n := scaled.natAbs
  if d = 0 then sign ++ toString n
  else sign ++ toString (n / 10 ^ d) ++ "." ++ padZeros (toString (n % 10 ^ d)) d

/-- Model of `Math.max(...l)`: `none` on the empty spread (JavaScript returns
`-Infinity` there, which the dashboard guards against), otherwise the
maximum of the arguments. -/
def jsMathMax (l : List ℚ) : Option ℚ :=
  match l with
  | [] => none
  | a :: t => some (t.foldl max a)

/-- The `DerivedStats` record produced by the dashboard's `stats` memo. -/
structure DerivedStats where
  avgLatency : String
  totalRequests : ℕ
  errorRate : String
  peakLatency : String
deriving Repr, DecidableEq

/-- The `stats` memo of `Dashboard`: early return on the empty list, then
total count, reduce-based latency sum, `toFixed(2)` average, error count by
`statusCode >= 400`, `toFixed(1)` percentage, and `Math.max` peak latency. -/
def stats (metrics : List MetricData) : DerivedStats :=
  if metrics.length = 0 then
    { avgLatency := "0.00", totalRequests := 0, errorRate := "0.0", peakLatency := "0.00" }
  else
    let totalRequests := metrics.length
    let totalLatency := metrics.foldl (fun acc curr => acc + rtVal curr) 0
    let avgLatency := toFixed (totalLatency / totalRequests) 2
    let errors := (metrics.filter (fun m => 400 ≤ m.statusCode)).length
    let errorRate := toFixed ((errors : ℚ) / (totalRequests : ℚ) * 100) 1
    let latencies := metrics.map rtVal
    let peakLatency :=
      match jsMathMax latencies with
      | some v => toFixed v 2
      | none => "0.00"
    { avgLatency := avgLatency, totalRequests := totalRequests,
      errorRate := errorRate, peakLatency := peakLatency }

lemma foldl_add_rtVal (l : List MetricData) :
    ∀ a : ℚ, l.foldl (fun acc curr => acc + rtVal curr) a = a + (l.map rtVal).sum := by
  induction l with
  | nil => intro a; simp
  | cons x t ih =>
      intro a
      simp only [List.foldl_cons, List.map_cons, List.sum_cons, ih]
      ring

lemma foldl_max_spec (t : List ℚ) :
    ∀ a : ℚ, t.foldl max a ∈ a :: t ∧ a ≤ t.foldl max a ∧
      ∀ x ∈ t, x ≤ t.foldl max a := by
  induction t with
  | nil => intro a; simp
  | cons b t ih =>
      intro a
      obtain ⟨hmem, hle, hub⟩ := ih (max a b)
      refine ⟨?_, ?_, ?_⟩
      · simp only [List.foldl_cons]
        rcases List.mem_cons.mp hmem with h | h
        · rw [h]
          rcases max_choice a b with hc | hc <;> rw [hc] <;> simp
        · exact List.mem_cons_of_mem _ (List.mem_cons_of_mem _ h)
      · exact le_trans (le_max_left a b) hle
      · intro x hx
        rcases List.mem_cons.mp hx with h | h
        · simp only [List.foldl_cons]
          rw [h]
          exact le_trans (le_max_right a b) hle
        · simpa only [List.foldl_cons] using hub x h

lemma jsMathMax_spec {l : List ℚ} {v : ℚ} (h : jsMathMax l = some v) :
    v ∈ l ∧ ∀ x ∈ l, x ≤ v := by
  cases l with
  | nil => simp [jsMathMax] at h
  | cons a t =>
      simp only [jsMathMax, Option.some.injEq] at h
      obtain ⟨hmem, hle, hub⟩ := foldl_max_spec t a
      subst h
      refine ⟨hmem, ?_⟩
      intro x hx
      rcases List.mem_cons.mp hx with hx | hx
      · subst hx; exact hle
      · exact hub x hx

/-- C1: `computeStats` returns `totalRequests` = length, `avgLatency` = mean
of `responseTimeMs` (missing counted as 0) to 2 decimals, `errorRate` =
(#{statusCode ≥ 400} / total) × 100 to 1 decimal, `peakLatency` = maximum
`responseTimeMs` to 2 decimals, and exactly the all-zero record on the empty
sequence. -/
theorem computeStats_spec (metrics : List MetricData) :
    (stats metrics).totalRequests = metrics.length ∧
    (metrics = [] →
      stats metrics =
        { avgLatency := "0.00", totalRequests := 0, errorRate := "0.0", peakLatency := "0.00" }) ∧
    (metrics ≠ [] →
      (stats metrics).avgLatency =
        toFixed ((metrics.map rtVal).sum / (metrics.length : ℚ)) 2 ∧
      (stats metrics).errorRate =
        toFixed (((metrics.filter (fun m => 400 ≤ m.statusCode)).length : ℚ) /
          (metrics.length : ℚ) * 100) 1 ∧
      ∃ v, v ∈ metrics.map rtVal ∧ (∀ x ∈ metrics.map rtVal, x ≤ v) ∧
        (stats metrics).peakLatency = toFixed v 2) := by
  by_cases hnil : metrics = []
  · subst hnil
    refine ⟨rfl, fun _ => rfl, fun h => absurd rfl h⟩
  · have hlen : metrics.length ≠ 0 := by
      simpa [List.length_eq_zero] using hnil
    refine ⟨?_, fun h => absurd h hnil, fun _ => ⟨?_, ?_, ?_⟩⟩
    · simp [stats, hlen]
    · simp only [stats, hlen, if_neg hlen]
      rw [foldl_add_rtVal metrics 0]
      simp
    · simp [stats, hlen]
    · have hmap : metrics.map rtVal ≠ [] := by
        simpa using hnil
      obtain ⟨a, t, hat⟩ := List.exists_cons_of_ne_nil hmap
      have hmax : jsMathMax (metrics.map rtVal) = some (t.foldl max a) := by
        rw [hat]; rfl
      obtain ⟨hmem, hub⟩ := jsMathMax_spec hmax
      refine ⟨t.foldl max a, hmem, hub, ?_⟩
      simp [stats, hlen, hmax]

/-- C1 witness: the theorem instantiated at three records with latencies
100, 200, 300. -/
theorem computeStats_spec_witness :
    (stats
      [{ method := some "GET", endpoint := "/a", responseTimeMs := some 100, statusCode := 200,
         requestSizeBytes := 0, responseSizeBytes := 0, timestampMs := some 1 },
       { method := some "GET", endpoint := "/a", responseTimeMs := some 200, statusCode := 200,
         requestSizeBytes := 0, responseSizeBytes := 0, timestampMs := some 2 },
       { method := some "GET", endpoint := "/a", responseTimeMs := some 300, statusCode := 500,
         requestSizeBytes := 0, responseSizeBytes := 0, timestampMs := some 3 }]).avgLatency =
      toFixed
        (([(100 : ℚ), 200, 300].sum) / (3 : ℚ)) 2 := by
  have h := (computeStats_spec
      [{ method := some "GET", endpoint := "/a", responseTimeMs := some 100, statusCode := 200,
         requestSizeBytes := 0, responseSizeBytes := 0, timestampMs := some 1 },
       { method := some "GET", endpoint := "/a", responseTimeMs := some 200, statusCode := 200,
         requestSizeBytes := 0, responseSizeBytes := 0, timestampMs := some 2 },
       { method := some "GET", endpoint := "/a", responseTimeMs := some 300, statusCode := 500,
         requestSizeBytes := 0, responseSizeBytes := 0, timestampMs := some 3 }]).2.2
      (by decide)
  simpa [rtVal] using h.1

/-- The pure body of `fetchData` in `Dashboard`: take `Object.values` of the
keyed response and sort by `(a.timestampMs || 0) - (b.timestampMs || 0)`.
The keyed response is modelled as an insertion-ordered association list. -/
def toOrderedSequence (data : List (String × MetricData)) : List MetricData :=
  (data.map Prod.snd).mergeSort (fun a b => tsKey a ≤ tsKey b)

/-- C2: `toOrderedSequence` returns a permutation of the values of the input
mapping, sorted non-decreasing by timestamp with a missing timestamp treated
as 0 (`tsKey`). -/
theorem toOrderedSequence_spec (data : List (String × MetricData)) :
    (toOrderedSequence data).Perm (data.map Prod.snd) ∧
    (toOrderedSequence data).Pairwise (fun a b => tsKey a ≤ tsKey b) := by
  constructor
  · exact List.mergeSort_perm (data.map Prod.snd) _
  · have h := @List.sorted_mergeSort MetricData
      (fun a b : MetricData => decide (tsKey a ≤ tsKey b))
      (fun a b c hab hbc => by
        simp only [decide_eq_true_eq] at *
        exact le_trans hab hbc)
      (fun a b => by
        simp only [Bool.or_eq_true, decide_eq_true_eq]
        exact le_total (tsKey a) (tsKey b))
      (data.map Prod.snd)
    refine List.Pairwise.imp ?_ h
    intro a b hab
    simpa using hab

/-- Model of `l.slice(-n)` for `n > 0`: the last `min n (length l)` elements. -/
def jsSliceLast (n : ℕ) (l : List MetricData) : List MetricData :=
  l.drop (l.length - n)

/-- Model of `parseFloat(x.toFixed(2))`: exact half-up rounding to 2 decimal places. -/
def round2 (q : ℚ) : ℚ := (jsRoundHalfUp (q * 100) : ℚ) / 100

/-- One point of the latency chart series. -/
structure LatencyPoint where
  name : ℕ
  ms : ℚ
  time : String
deriving Repr, DecidableEq

/-- The `time` field of a latency point: `m.timestampMs` formatted when
truthy (present and nonzero), the empty string otherwise.  The
locale-dependent `toLocaleTimeString` rendering is an abstract parameter. -/
def latTime (fmt : ℤ → String) (m : MetricData) : String :=
  match m.timestampMs with
  | some t => if t ≠ 0 then fmt t else ""
  | none => ""

/-- The `latencyData` memo of `Dashboard`:
`metrics.slice(-30).map((m, i) => ({name: i, ms: round2(rt), time: ...}))`. -/
def latencyData (fmt : ℤ → String) (metrics : List MetricData) : List LatencyPoint :=
  ((jsSliceLast 30 metrics).enum).map fun p =>
    { name := p.1, ms := round2 (rtVal p.2), time := latTime fmt p.2 }

/-- C3: on a sequence of at least 30 records, `latencySeries` returns exactly
30 points, obtained from the last 30 records in their original order, each
mapped to its index, its rounded latency, and its formatted time. -/
theorem latencySeries_spec (fmt : ℤ → String) (metrics : List MetricData)
    (h : 30 ≤ metrics.length) :
    (latencyData fmt metrics).length = 30 ∧
    ∃ pre tail, metrics = pre ++ tail ∧ tail.length = 30 ∧
      latencyData fmt metrics = tail.enum.map (fun p =>
        { name := p.1, ms := round2 (rtVal p.2), time := latTime fmt p.2 }) := by
  have hdrop : (metrics.drop (metrics.length - 30)).length = 30 := by
    rw [List.length_drop]
    omega
  constructor
  · simp [latencyData, jsSliceLast, List.length_drop]
    omega
  · refine ⟨metrics.take (metrics.length - 30), metrics.drop (metrics.length - 30),
      (List.take_append_drop _ metrics).symm, hdrop, rfl⟩

/-- A placeholder record used to instantiate witnesses at concrete inputs. -/
def exMetric : MetricData :=
  { method := some "GET", endpoint := "/pedidos", responseTimeMs := some 12,
    statusCode := 200, requestSizeBytes := 0, responseSizeBytes := 64,
    timestampMs := some 1700000000000 }

/-- C3 witness: on a 45-element sequence the series has exactly 30 points. -/
theorem latencySeries_spec_witness :
    (latencyData (fun _ => "t") (List.replicate 45 exMetric)).length = 30 :=
  (latencySeries_spec (fun _ => "t") (List.replicate 45 exMetric) (by simp)).1

/-- The `Recent Requests` table body of `Dashboard`:
`metrics.slice(-10).reverse()`. -/
def recentLog (metrics : List MetricData) : List MetricData :=
  (jsSliceLast 10 metrics).reverse

/-- C5: on a sequence of at least 10 records, `recentLog` returns exactly 10
records, namely the last 10 of the sequence in reversed order; in particular
its first entry is the last (under ascending timestamp order, most recent)
record of the input. -/
theorem recentLog_spec (metrics : List MetricData) (h : 10 ≤ metrics.length) :
    (recentLog metrics).length = 10 ∧
    (∃ pre tail, metrics = pre ++ tail ∧ tail.length = 10 ∧
      recentLog metrics = tail.reverse) ∧
    (recentLog metrics).head? = metrics.getLast? := by
  have hdrop : (metrics.drop (metrics.length - 10)).length = 10 := by
    rw [List.length_drop]
    omega
  refine ⟨?_, ⟨metrics.take (metrics.length - 10), metrics.drop (metrics.length - 10),
      (List.take_append_drop _ metrics).symm, hdrop, rfl⟩, ?_⟩
  · simp [recentLog, jsSliceLast, List.length_drop]
    omega
  · have hne : metrics.drop (metrics.length - 10) ≠ [] := by
      intro hx
      rw [hx] at hdrop
      simp at hdrop
    calc (recentLog metrics).head?
        = (metrics.drop (metrics.length - 10)).getLast? := by
          simp [recentLog, jsSliceLast, List.head?_reverse]
      _ = metrics.getLast? := by
          conv_rhs => rw [← List.take_append_drop (metrics.length - 10) metrics]
          rw [List.getLast?_append]
          rcases List.exists_cons_of_ne_nil hne with ⟨a, t, hat⟩
          rw [hat]
          simp [List.getLast?_concat, Option.or]
          cases hgl : (a :: t).getLast? with
          | none => simp [List.getLast?_eq_none_iff] at hgl
          | some v => simp

/-- C5 witness: on a 15-element sequence the log has exactly 10 entries. -/
theorem recentLog_spec_witness :
    (recentLog (List.replicate 15 exMetric)).length = 10 :=
  (recentLog_spec (List.replicate 15 exMetric) (by simp)).1

/-- Model of `counts[k] = (counts[k] || 0) + 1` on a plain object, modelled as an
insertion-ordered association list: increment an existing entry in place,
otherwise append a fresh entry with count 1. -/
def bumpCount : List (String × ℕ) → String → List (String × ℕ)
  | [], k => [(k, 1)]
  | (k', v) :: rest, k =>
      if k' = k then (k', v + 1) :: rest else (k', v) :: bumpCount rest k

/-- The `methodData` memo of `Dashboard`: fold every record's method label
into the counts object; `Object.entries` then reads the entries back in
insertion order. -/
def methodData (metrics : List MetricData) : List (String × ℕ) :=
  metrics.foldl (fun counts m => bumpCount counts (methodLabel m)) []

/-- The keys of a counts object, in order. -/
def keysOf (counts : List (String × ℕ)) : List String := counts.map Prod.fst

/-- The distinct elements of a list in order of first occurrence. -/
def firstSeen : List String → List String
  | [] => []
  | a :: l => a :: firstSeen (l.filter (fun x => x ≠ a))
termination_by l => l.length
decreasing_by
  simpa using Nat.lt_succ_of_le (List.length_filter_le _ l)

lemma keysOf_bumpCount (counts : List (String × ℕ)) (k : String) :
    keysOf (bumpCount counts k) =
      if k ∈ keysOf counts then keysOf counts else keysOf counts ++ [k] := by
  induction counts with
  | nil => simp [bumpCount, keysOf]
  | cons p rest ih =>
      obtain ⟨k', v⟩ := p
      by_cases hk : k' = k
      · subst hk
        simp [bumpCount, keysOf]
      · have hkk : ¬ k = k' := fun hx => hk hx.symm
        by_cases hmem : k ∈ keysOf rest <;>
          simp_all [bumpCount, keysOf, hk, hkk]

lemma bumpCount_not_mem {counts : List (String × ℕ)} {k : String}
    (h : k ∉ keysOf counts) : bumpCount counts k = counts ++ [(k, 1)] := by
  induction counts with
  | nil => rfl
  | cons p rest ih =>
      obtain ⟨k', v⟩ := p
      simp only [keysOf, List.map_cons, List.mem_cons, not_or] at h
      have hk : ¬ k' = k := fun hx => h.1 hx.symm
      simp only [bumpCount, if_neg hk, List.cons_append, List.cons.injEq, true_and]
      exact ih h.2

lemma map_bumpIf_not_mem {counts : List (String × ℕ)} {k : String}
    (h : k ∉ keysOf counts) :
    counts.map (fun p => if p.1 = k then (p.1, p.2 + 1) else p) = counts := by
  induction counts with
  | nil => rfl
  | cons p rest ih =>
      obtain ⟨k', v⟩ := p
      simp only [keysOf, List.map_cons, List.mem_cons, not_or] at h
      have hk : ¬ k' = k := fun hx => h.1 hx.symm
      simp only [List.map_cons, if_neg hk]
      rw [ih h.2]

lemma bumpCount_mem {counts : List (String × ℕ)} {k : String}
    (hnd : (keysOf counts).Nodup) (h : k ∈ keysOf counts) :
    bumpCount counts k =
      counts.map (fun p => if p.1 = k then (p.1, p.2 + 1) else p) := by
  induction counts with
  | nil => simp [keysOf] at h
  | cons p rest ih =>
      obtain ⟨k', v⟩ := p
      simp only [keysOf, List.map_cons, List.nodup_cons] at hnd
      by_cases hk : k' = k
      · subst hk
        have hrest := map_bumpIf_not_mem hnd.1
        simp [bumpCount, hrest]
      · simp only [keysOf, List.map_cons, List.mem_cons] at h
        rcases h with h | h
        · exact absurd h.symm hk
        · simp only [bumpCount, if_neg hk, List.map_cons, if_neg hk]
          rw [ih hnd.2 h]

lemma mem_firstSeen {x : String} : ∀ {l : List String}, x ∈ firstSeen l → x ∈ l := by
  intro l
  induction l using firstSeen.induct with
  | case1 => intro h; simp [firstSeen] at h
  | case2 a t ih =>
      intro h
      rw [firstSeen] at h
      rcases List.mem_cons.mp h with h | h
      · simp [h]
      · exact List.mem_cons_of_mem _ (List.mem_of_mem_filter (ih h))

lemma foldl_bumpCount_eq (labels : List String) :
    ∀ acc : List (String × ℕ), (keysOf acc).Nodup →
      labels.foldl bumpCount acc =
        acc.map (fun p => (p.1, p.2 + labels.count p.1)) ++
        (firstSeen (labels.filter (fun x => decide (x ∉ keysOf acc)))).map
          (fun l => (l, labels.count l)) := by
  induction labels with
  | nil =>
      intro acc hnd
      simp [firstSeen]
  | cons a labels ih =>
      intro acc hnd
      have hnd' : (keysOf (bumpCount acc a)).Nodup := by
        rw [keysOf_bumpCount]
        by_cases hmem : a ∈ keysOf acc
        · simpa [hmem] using hnd
        · simp [hmem, List.nodup_append, hnd]
      rw [List.foldl_cons, ih (bumpCount acc a) hnd']
      by_cases hmem : a ∈ keysOf acc
      · have hkeys : keysOf (bumpCount acc a) = keysOf acc := by
          rw [keysOf_bumpCount]; simp [hmem]
        rw [hkeys, bumpCount_mem hnd hmem, List.map_map]
        have hfa : (a :: labels).filter (fun x => decide (x ∉ keysOf acc)) =
            labels.filter (fun x => decide (x ∉ keysOf acc)) := by
          rw [List.filter_cons]
          simp [hmem]
        rw [hfa]
        congr 1
        · apply List.map_congr_left
          intro p _
          by_cases hpa : p.1 = a
          · simp [Function.comp, hpa, List.count_cons, Prod.ext_iff]
            omega
          · have hne : (a == p.1) = false := by
              simp only [beq_eq_false_iff_ne, ne_eq]
              exact fun hx => hpa hx.symm
            simp [Function.comp, hpa, List.count_cons, hne]
        · apply List.map_congr_left
          intro l hl
          have hlin : l ∈ labels.filter (fun x => decide (x ∉ keysOf acc)) :=
            mem_firstSeen hl
          have hlnot : l ∉ keysOf acc := by
            have := List.of_mem_filter hlin
            simpa using this
          have hla : (a == l) = false := by
            simp only [beq_eq_false_iff_ne, ne_eq]
            intro hx
            exact hlnot (hx ▸ hmem)
          simp [List.count_cons, hla]
      · have hkeys : keysOf (bumpCount acc a) = keysOf acc ++ [a] := by
          rw [keysOf_bumpCount]; simp [hmem]
        rw [hkeys, bumpCount_not_mem hmem, List.map_append]
        have hfa : (a :: labels).filter (fun x => decide (x ∉ keysOf acc)) =
            a :: labels.filter (fun x => decide (x ∉ keysOf acc)) := by
          rw [List.filter_cons]
          simp [hmem]
        rw [hfa, firstSeen]
        have hfilter : labels.filter (fun x => decide (x ∉ keysOf acc ++ [a])) =
            (labels.filter (fun x => decide (x ∉ keysOf acc))).filter
              (fun x => decide (x ≠ a)) := by
          rw [List.filter_filter]
          apply List.filter_congr
          intro x _
          rw [← Bool.decide_and]
          apply decide_eq_decide.mpr
          simp only [List.mem_append, List.mem_singleton, not_or]
          tauto
        rw [hfilter]
        simp only [List.map_cons, List.map_nil, List.map_append, List.append_assoc,
          List.singleton_append, List.nil_append, List.append_nil]
        congr 1
        · apply List.map_congr_left
          intro p hp
          have hpk : p.1 ∈ keysOf acc := List.mem_map_of_mem Prod.fst hp
          have hpa : (a == p.1) = false := by
            simp only [beq_eq_false_iff_ne, ne_eq]
            intro hx
            exact hmem (hx ▸ hpk)
          simp [List.count_cons, hpa]
        · have hhead : ((a : String), 1 + List.count a labels) =
              (a, List.count a (a :: labels)) := by
            simp [List.count_cons, Prod.ext_iff]
            omega
          rw [hhead]
          congr 1
          apply List.map_congr_left
          intro l hl
          have hlin := mem_firstSeen hl
          have hla : (a == l) = false := by
            have hx := List.of_mem_filter hlin
            simp only [decide_eq_true_eq] at hx
            simp only [beq_eq_false_iff_ne, ne_eq]
            intro he
            exact hx he.symm
          simp [List.count_cons, hla]

/-- C4: `methodFrequency` maps each method label to its number of occurrences
(an absent method being labelled `UNKNOWN`), and the output lists the labels
in order of first occurrence. -/
theorem methodFrequency_spec (metrics : List MetricData) :
    methodData metrics =
      (firstSeen (metrics.map methodLabel)).map
        (fun l => (l, (metrics.map methodLabel).count l)) ∧
    ∀ m : MetricData, m.method = none → methodLabel m = "UNKNOWN" := by
  constructor
  · have h1 : methodData metrics = (metrics.map methodLabel).foldl bumpCount [] := by
      rw [List.foldl_map]
      rfl
    rw [h1, foldl_bumpCount_eq (metrics.map methodLabel) [] (by simp [keysOf])]
    simp [keysOf]
  · intro m hm
    simp [methodLabel, hm]

/-- C4 witness: a record with an absent method is labelled `UNKNOWN`. -/
theorem methodFrequency_spec_witness :
    methodLabel
      { method := none, endpoint := "/x", responseTimeMs := none, statusCode := 200,
        requestSizeBytes := 0, responseSizeBytes := 0, timestampMs := none } = "UNKNOWN" :=
  (methodFrequency_spec []).2 _ rfl

/-- The shape of `POST /login` response bodies, from the `AuthResponse`
interface.  `token` is `Option`-valued because `handleSubmit` guards it with
a truthiness check. -/
structure AuthResponse where
  ok : Bool
  token : Option String
  clientId : String
  email : String
  hasCredentials : Bool
  erro : Option String
deriving Repr, DecidableEq

/-- Outcome of `authService.login` as observed by `handleSubmit`: either the
parsed response body, or a thrown network error carrying
`err.response?.data?.erro`. -/
inductive LoginResult where
  | response : AuthResponse → LoginResult
  | netError : Option String → LoginResult
deriving Repr, DecidableEq

/-- The two `localStorage` keys `delibery_token` and `delibery_user_email`;
`none` models an absent key. -/
structure SessionStorage where
  token : Option String
  email : Option String
deriving Repr, DecidableEq

/-- JavaScript truthiness of an optional string: present and non-empty. -/
def strTruthy : Option String → Bool
  | some s => s ≠ ""
  | none => false

/-- Model of `x || d` on strings: the fallback when `x` is absent or empty. -/
def jsOrString (o : Option String) (d : String) : String :=
  match o with
  | some s => if s = "" then d else s
  | none => d

/-- The inline message shown on an `ok:false` (or missing-token) response. -/
def authFailureMsg : String := "Falha na autenticação. Verifique suas credenciais."

/-- The generic connectivity fallback message of the catch branch. -/
def connErrorMsg : String := "Erro ao conectar com o servidor."

/-- The observable outcome of one `handleSubmit` run: the storage afterwards,
the error state, and the email passed to `onLoginSuccess` (if called). -/
structure SubmitOutcome where
  storage : SessionStorage
  error : Option String
  loginSuccess : Option String
deriving Repr, DecidableEq

/-- The `handleSubmit` flow of `Login`: on `data.ok && data.token` persist
the token and email and call `onLoginSuccess(data.email)`; otherwise show the
fixed authentication-failure message; on a thrown error show
`err.response?.data?.erro || <generic connectivity message>`. -/
def handleSubmit (res : LoginResult) (st : SessionStorage) : SubmitOutcome :=
  match res with
  | .response data =>
      if data.ok && strTruthy data.token then
        { storage := { token := data.token, email := some data.email },
          error := none, loginSuccess := some data.email }
      else
        { storage := st, error := some authFailureMsg, loginSuccess := none }
  | .netError erro =>
      { storage := st, error := some (jsOrString erro connErrorMsg), loginSuccess := none }

/-- C6: a login attempt whose response has `ok: false`, and a login attempt
that throws a network error, both leave the persisted session storage
untouched (no token is written). -/
theorem login_failure_preserves_storage (st : SessionStorage) (data : AuthResponse)
    (e : Option String) :
    (data.ok = false → (handleSubmit (.response data) st).storage = st) ∧
    (handleSubmit (.netError e) st).storage = st := by
  constructor
  · intro h
    simp [handleSubmit, h]
  · rfl

/-- C6 witness: a concrete rejected response and a concrete network error
leave a concrete stored session unchanged. -/
theorem login_failure_preserves_storage_witness :
    (handleSubmit
      (.response { ok := false, token := some "t2", clientId := "c", email := "b@x.com",
                   hasCredentials := true, erro := some "Senha incorreta" })
      { token := some "t1", email := some "a@x.com" }).storage =
      { token := some "t1", email := some "a@x.com" } :=
  (login_failure_preserves_storage { token := some "t1", email := some "a@x.com" }
    { ok := false, token := some "t2", clientId := "c", email := "b@x.com",
      hasCredentials := true, erro := some "Senha incorreta" } none).1 rfl

/-- C7 counterexample: the server answers `ok:false` with the reason
`erro = "Senha incorreta"`, yet the user is shown the fixed local
authentication message, which is neither that reason nor the generic
connectivity message. -/
theorem login_error_message_counterexample :
    (handleSubmit
      (.response { ok := false, token := some "tok", clientId := "c", email := "u@x.com",
                   hasCredentials := true, erro := some "Senha incorreta" })
      { token := none, email := none }).error = some authFailureMsg ∧
    authFailureMsg ≠ "Senha incorreta" ∧
    authFailureMsg ≠ connErrorMsg := by
  refine ⟨rfl, ?_, ?_⟩ <;> decide

/-- C7 (amended): a failed login surfaces exactly one of three messages: the
fixed authentication-failure message when the response arrives with
`ok:false` or a missing/empty token (the `erro` field of such a response is
ignored), the server-supplied reason when a thrown network error carries a
non-empty `erro`, and the generic connectivity message for all other thrown
errors. -/
theorem login_error_message_amended (st : SessionStorage) (data : AuthResponse)
    (e : Option String) :
    ((data.ok = false ∨ strTruthy data.token = false) →
      (handleSubmit (.response data) st).error = some authFailureMsg) ∧
    (∀ s, e = some s → s ≠ "" →
      (handleSubmit (.netError e) st).error = some s) ∧
    ((e = none ∨ e = some "") →
      (handleSubmit (.netError e) st).error = some connErrorMsg) := by
  refine ⟨?_, ?_, ?_⟩
  · intro h
    have hb : (data.ok && strTruthy data.token) = false := by
      rcases h with h | h <;> simp [h]
    simp [handleSubmit, hb]
  · intro s hs hne
    subst hs
    simp [handleSubmit, jsOrString, hne]
  · intro h
    rcases h with h | h <;> subst h <;> simp [handleSubmit, jsOrString]

/-- C7 amended witness: a rejected response carrying a server reason still
surfaces the fixed authentication message, and a thrown error carrying the
reason `"Token inválido"` surfaces exactly that reason. -/
theorem login_error_message_amended_witness :
    (handleSubmit
      (.response { ok := false, token := some "tok", clientId := "c", email := "u@x.com",
                   hasCredentials := true, erro := some "Senha incorreta" })
      { token := some "t0", email := some "a@x.com" }).error = some authFailureMsg ∧
    (handleSubmit (.netError (some "Token inválido"))
      { token := none, email := none }).error = some "Token inválido" :=
  ⟨(login_error_message_amended { token := some "t0", email := some "a@x.com" }
      { ok := false, token := some "tok", clientId := "c", email := "u@x.com",
        hasCredentials := true, erro := some "Senha incorreta" } none).1 (Or.inl rfl),
   (login_error_message_amended { token := none, email := none }
      { ok := true, token := some "t", clientId := "c", email := "u@x.com",
        hasCredentials := true, erro := none }
      (some "Token inválido")).2.1 "Token inválido" rfl (by decide)⟩

/-- C10: a session is persisted exactly when the response has `ok: true` and
a present, non-empty token; `ok: true` with a missing or empty token
persists nothing and surfaces the authentication-failure message. -/
theorem login_persistence_iff (st : SessionStorage) (data : AuthResponse) :
    (data.ok = true ∧ strTruthy data.token = true →
      (handleSubmit (.response data) st).storage =
        { token := data.token, email := some data.email } ∧
      (handleSubmit (.response data) st).error = none ∧
      (handleSubmit (.response data) st).loginSuccess = some data.email) ∧
    (¬(data.ok = true ∧ strTruthy data.token = true) →
      (handleSubmit (.response data) st).storage = st ∧
      (handleSubmit (.response data) st).error = some authFailureMsg ∧
      (handleSubmit (.response data) st).loginSuccess = none) := by
  constructor
  · intro h
    have hb : (data.ok && strTruthy data.token) = true := by
      simp [h.1, h.2]
    simp [handleSubmit, hb]
  · intro h
    have hb : (data.ok && strTruthy data.token) = false := by
      rcases Bool.eq_false_or_eq_true (data.ok && strTruthy data.token) with hx | hx
      · exact absurd (by simpa using hx) h
      · exact hx
    simp [handleSubmit, hb]

/-- C10 witness: an `ok: true` response with an empty token persists nothing
and reports an authentication failure. -/
theorem login_persistence_iff_witness :
    (handleSubmit
      (.response { ok := true, token := some "", clientId := "c", email := "u@x.com",
                   hasCredentials := true, erro := none })
      { token := none, email := none }).storage = { token := none, email := none } :=
  ((login_persistence_iff { token := none, email := none }
    { ok := true, token := some "", clientId := "c", email := "u@x.com",
      hasCredentials := true, erro := none }).2 (by decide)).1

/-- Model of `authService.logout`: remove both `localStorage` keys.  The function has
no other effect; in particular it performs no server call (it is a pure
storage update). -/
def logout (_st : SessionStorage) : SessionStorage :=
  { token := none, email := none }

/-- The session-restore read at the start of `App`: the stored session is
used only when both stored values are truthy (present and non-empty). -/
def currentSession (st : SessionStorage) : Option (String × String) :=
  match st.token, st.email with
  | some t, some e => if t ≠ "" && e ≠ "" then some (t, e) else none
  | _, _ => none

/-- C8: after `logout` both persisted values are cleared and a subsequent
`currentSession` read returns `none`; `logout` is a pure client-local
storage update (it is modelled as a function on storage alone, mirroring the
source, which only removes the two keys and contacts no server). -/
theorem logout_clears_session (st : SessionStorage) :
    (logout st).token = none ∧ (logout st).email = none ∧
    currentSession (logout st) = none :=
  ⟨rfl, rfl, rfl⟩

/-- Events of the `handleSimulateTraffic` control flow, in program order:
the three concurrently issued `simulateGetOrders` calls, the `Promise.all`
barrier, the `setTimeout` delay, and the `fetchData` re-fetch (or the catch
branch's diagnostic log). -/
inductive TrafficEvent where
  | issueOrderFetch : TrafficEvent
  | awaitAllSettled : TrafficEvent
  | delayMs : ℕ → TrafficEvent
  | refetchMetrics : TrafficEvent
  | reportError : TrafficEvent
deriving Repr, DecidableEq

/-- The event trace of `handleSimulateTraffic`: three order fetches are
issued, `Promise.all` is awaited, and only on success does a 1500 ms delay
followed by the metrics re-fetch happen; a rejection runs the catch branch
with no re-fetch. -/
def handleSimulateTraffic (allSettledOk : Bool) : List TrafficEvent :=
  if allSettledOk then
    [.issueOrderFetch, .issueOrderFetch, .issueOrderFetch, .awaitAllSettled,
     .delayMs 1500, .refetchMetrics]
  else
    [.issueOrderFetch, .issueOrderFetch, .issueOrderFetch, .reportError]

/-- C9: the simulate-traffic action issues exactly three order fetches, and
any metrics re-fetch in its trace happens only after the all-settled barrier,
after the fixed 1500 ms delay, and after all three fetches were issued. -/
theorem simulateTraffic_spec (allSettledOk : Bool) :
    (handleSimulateTraffic allSettledOk).count TrafficEvent.issueOrderFetch = 3 ∧
    ∀ i : ℕ,
      (handleSimulateTraffic allSettledOk).get? i = some TrafficEvent.refetchMetrics →
      (∃ j, j < i ∧
        (handleSimulateTraffic allSettledOk).get? j = some TrafficEvent.awaitAllSettled) ∧
      (∃ j, j < i ∧
        (handleSimulateTraffic allSettledOk).get? j = some (TrafficEvent.delayMs 1500)) ∧
      ((handleSimulateTraffic allSettledOk).take i).count TrafficEvent.issueOrderFetch = 3 := by
  cases allSettledOk
  · refine ⟨by decide, ?_⟩
    intro i hi
    exfalso
    rcases i with _ | _ | _ | _ | i <;> simp [handleSimulateTraffic, List.get?] at hi
  · refine ⟨by decide, ?_⟩
    intro i hi
    have h5 : i = 5 := by
      rcases i with _ | _ | _ | _ | _ | _ | i <;>
        simp [handleSimulateTraffic, List.get?] at hi ⊢
    subst h5
    exact ⟨⟨3, by omega, rfl⟩, ⟨4, by omega, rfl⟩, by decide⟩

/-- C9 witness: in the successful trace the re-fetch at position 5 is
preceded by the barrier, the delay, and all three issued fetches. -/
theorem simulateTraffic_spec_witness :
    (∃ j, j < 5 ∧
      (handleSimulateTraffic true).get? j = some TrafficEvent.awaitAllSettled) ∧
    (∃ j, j < 5 ∧
      (handleSimulateTraffic true).get? j = some (TrafficEvent.delayMs 1500)) ∧
    ((handleSimulateTraffic true).take 5).count TrafficEvent.issueOrderFetch = 3 :=
  (simulateTraffic_spec true).2 5 rfl
